import Mathlib

/-!
Verification of the c2rust `gen` code generators
(`util.py`, `ast_deref.py`, `ast_names.py`, `list_node_ids.py`).

The Python sources are shallowly embedded: each generator that yields lines
(the `linewise` decorator joins them with a newline) is modelled by a
function producing a `List String` together with its newline join; the
`comma_sep` decorator is the analogous join with a comma.  Attribute bags
(Python dicts from attribute name to optional string value) are association
lists; Python `k in attrs` is `hasAttr` and `attrs.get(k) == v` is compared
through `attrGet`, which, like `dict.get`, collapses a missing key and a
key stored with no value to `none`.  The `datetime.now()` call in each
banner is modelled as an explicit timestamp parameter, and `ValueError` is
modelled with `Except String`.  Literal braces of the generated Rust text
are written with hexadecimal escapes.
-/

namespace C2Rust

/-- Modelled from the spec: the `Field` class lives in the repository's `ast`
module, which is not among the provided sources; spec section 3 defines it as
a name plus an attribute mapping from attribute-name to optional value. -/
structure Field where
  name : String
  attrs : List (String × Option String)
deriving Repr, DecidableEq

/-- Modelled from the spec: the `Struct` class of the `ast` module (not among
the provided sources); spec section 3: a name, an attribute mapping, an
ordered field list, and an `is_tuple` flag. Enum cases are `Struct`-shaped. -/
structure Struct where
  name : String
  attrs : List (String × Option String)
  fields : List Field
  is_tuple : Bool
deriving Repr, DecidableEq

/-- Modelled from the spec: the `Enum` class of the `ast` module (not among
the provided sources); spec section 3: a name, an attribute mapping, and an
ordered sequence of `Struct`-shaped cases. -/
structure Enum where
  name : String
  attrs : List (String × Option String)
  variants : List Struct
deriving Repr, DecidableEq

/-- Modelled from the spec: the declaration list handed to the generators
holds `Struct`s, `Enum`s, and other (opaque) declaration kinds, which the
generators distinguish by `isinstance` checks; every declaration has a
`name` and an `attrs` mapping (spec section 3). -/
inductive Decl where
  | struct (s : Struct)
  | enum (e : Enum)
  | other (name : String) (attrs : List (String × Option String))
deriving Repr, DecidableEq

def Decl.name : Decl → String
  | .struct s => s.name
  | .enum e => e.name
  | .other n _ => n

def Decl.attrs : Decl → List (String × Option String)
  | .struct s => s.attrs
  | .enum e => e.attrs
  | .other _ a => a

/-- Python `k in attrs` for an attribute dict. -/
def hasAttr (attrs : List (String × Option String)) (k : String) : Bool :=
  attrs.any (fun p => p.1 == k)

/-- Python `attrs.get(k)`: the stored value for `k`, where a missing key and
a key stored without a value both give `none`. -/
def attrGet (attrs : List (String × Option String)) (k : String) : Option String :=
  match attrs.find? (fun p => p.1 == k) with
  | some p => p.2
  | none => none

/-- Python `sep.join(pieces)`. -/
def joinWith (sep : String) : List String → String
  | [] => ""
  | [a] => a
  | a :: b :: rest => a ++ sep ++ joinWith sep (b :: rest)

/-- util.py `struct_fields` (under the `comma_sep` decorator): each field
yields `name: bind_mode+name+suffix`, joined with a comma. -/
def struct_fields (fields : List Field) (suffix bind_mode : String) : String :=
  joinWith ", " (fields.map (fun f => f.name ++ ": " ++ bind_mode ++ f.name ++ suffix))

/-- util.py `tuple_fields` (under the `comma_sep` decorator): each field
yields `bind_mode+name+suffix`, joined with a comma. -/
def tuple_fields (fields : List Field) (suffix bind_mode : String) : String :=
  joinWith ", " (fields.map (fun f => bind_mode ++ f.name ++ suffix))

/-- util.py `struct_pattern`.  The Python defaults `suffix=''` and
`bind_mode='ref '` are passed explicitly at every call site. -/
def struct_pattern (s : Struct) (path suffix bind_mode : String) : String :=
  if !s.is_tuple then
    path ++ " \x7b " ++ struct_fields s.fields suffix bind_mode ++ " \x7d"
  else if s.fields.length == 0 then
    path
  else
    path ++ "(" ++ tuple_fields s.fields suffix bind_mode ++ ")"

/-- util.py: the comprehension `[f.name for f in s.fields if 'kind' in f.attrs]`
inside `find_kind_field`. -/
def marked_kind_fields (s : Struct) : List String :=
  (s.fields.filter (fun f => hasAttr f.attrs "kind")).map Field.name

/-- util.py `find_kind_field`.  `raise ValueError(...)` is modelled as
`Except.error` carrying the formatted message. -/
def find_kind_field (s : Struct) : Except String (Option String) :=
  if hasAttr s.attrs "no_kind" then
    .ok none
  else
    match marked_kind_fields s with
    | [m] => .ok (some m)
    | [] => .ok ((s.fields.find? (fun f => f.name == "kind")).map Field.name)
    | ms => .error ("struct " ++ s.name ++ " has " ++ toString ms.length ++
        " fields marked #[kind] (expected 0 or 1)")

/-- Modelled from the spec: `variants_paths` is defined in the repository's
`ast` module, which is not among the provided sources.  Spec section 4.3: a
Struct yields the single pair (declaration, declaration.name); an Enum
yields, in declaration order, one pair (case, enumName ++ "::" ++ caseName)
per case.  The spec leaves it undefined on other declaration kinds (the
generators never call it there); we return the empty sequence. -/
def variants_paths : Decl → List (Struct × String)
  | .struct s => [(s, s.name)]
  | .enum e => e.variants.map (fun c => (c, e.name ++ "::" ++ c.name))
  | .other _ _ => []

/-- The two banner lines plus blank line emitted by every `generate`;
`datetime.now()` is the explicit `ts` parameter. -/
def banner (ts : String) : List String :=
  ["// AUTOMATICALLY GENERATED - DO NOT EDIT",
   "// Produced " ++ ts ++ " by process_ast.py",
   ""]

/-- The identifiers bound by the pattern `struct_pattern v path suffix bm`:
in `struct_fields`, the piece `name: bind_mode+name+suffix` binds the
identifier `name ++ suffix`; in `tuple_fields`, the piece
`bind_mode+name+suffix` likewise binds `name ++ suffix`; the zero-field
tuple pattern is the bare path and binds nothing. -/
def pattern_bound_ids (v : Struct) (suffix : String) : List String :=
  if v.is_tuple && v.fields.isEmpty then []
  else v.fields.map (fun f => f.name ++ suffix)

namespace AstDeref

/-- ast_deref.py `do_ast_deref_impl` (under `linewise`), as its line list.
The source computes `supported = 'rewrite_seq_item' in d.attrs` but never
uses it; the binding is kept here, equally unused. -/
def do_ast_deref_impl_lines (d : Decl) : List String :=
  let _supported := hasAttr d.attrs "rewrite_seq_item"
  ["#[allow(unused)]",
   "impl AstDeref for " ++ d.name ++ " \x7b",
   "  type Target = Self;",
   "  fn ast_deref(&self) -> &Self \x7b self \x7d",
   "\x7d"]

/-- ast_deref.py `do_ast_deref_impl`: the newline join of its lines. -/
def do_ast_deref_impl (d : Decl) : String :=
  joinWith "\n" (do_ast_deref_impl_lines d)

/-- ast_deref.py `generate` (under `linewise`), with the banner timestamp
as an explicit parameter. -/
def generate (ts : String) (decls : List Decl) : String :=
  joinWith "\n" (banner ts ++ decls.map do_ast_deref_impl)

end AstDeref

namespace AstNames

/-- ast_names.py: the conditional
`if isinstance(d, (Struct)): if kind_field := find_kind_field(d): yield ...`
executed inside each match arm.  The walrus assignment tests Python
truthiness, so an empty-string field name yields nothing. -/
def kind_suffix_lines (d : Decl) : Except String (List String) :=
  match d with
  | .struct s =>
    match find_kind_field s with
    | .error e => .error e
    | .ok (some k) =>
      .ok (if k == "" then [] else ["        + \":\" + &self." ++ k ++ ".ast_name()"])
    | .ok none => .ok []
  | _ => .ok []

/-- ast_names.py: the lines yielded for one `(v, path)` pair of the match in
`do_ast_names_impl`. -/
def arm_lines (d : Decl) (v : Struct) (path : String) : Except String (List String) :=
  match kind_suffix_lines d with
  | .error e => .error e
  | .ok extra =>
    .ok (["      &" ++ struct_pattern v path "" "ref " ++ " => \x7b",
          "        \"" ++ v.name ++ "\".to_string()"]
         ++ extra ++ ["      \x7d"])

/-- ast_names.py: the `for v, path in variants_paths(d)` loop of
`do_ast_names_impl`, concatenating the arms and propagating the first
error, as the join in `linewise` forces the generator sequentially. -/
def arms_for (d : Decl) : List (Struct × String) → Except String (List String)
  | [] => .ok []
  | (v, p) :: rest =>
    match arm_lines d v p with
    | .error e => .error e
    | .ok a =>
      match arms_for d rest with
      | .error e => .error e
      | .ok as => .ok (a ++ as)

/-- ast_names.py `do_ast_names_impl` (under `linewise`): for a declaration
that is neither a Struct nor an Enum the generator returns immediately, so
the joined result is the empty string. -/
def do_ast_names_impl (d : Decl) : Except String String :=
  match d with
  | .other _ _ => .ok ""
  | _ =>
    match arms_for d (variants_paths d) with
    | .error e => .error e
    | .ok arms =>
      .ok (joinWith "\n"
        (["#[allow(unused, non_shorthand_field_patterns)]",
          "impl AstName for " ++ d.name ++ " \x7b",
          "  fn ast_name(&self) -> String \x7b",
          "    match self \x7b"]
         ++ arms ++ ["    \x7d", "  \x7d", "\x7d"]))

/-- ast_names.py: the `for d in decls` loop of `generate`, forcing each
declaration's block in order and propagating the first error. -/
def generate_blocks : List Decl → Except String (List String)
  | [] => .ok []
  | d :: rest =>
    match do_ast_names_impl d with
    | .error e => .error e
    | .ok b =>
      match generate_blocks rest with
      | .error e => .error e
      | .ok bs => .ok (b :: bs)

/-- ast_names.py `generate` (under `linewise`), with the banner timestamp
as an explicit parameter. -/
def generate (ts : String) (decls : List Decl) : Except String String :=
  match generate_blocks decls with
  | .error e => .error e
  | .ok blocks => .ok (joinWith "\n" (banner ts ++ blocks))

end AstNames

namespace ListNodeIds

/-- list_node_ids.py: the lines yielded for one `(v, path)` pair of the
match in `list_rec`: the pattern line, one `add_node_ids` call per field in
declaration order, and the closing brace. -/
def arm_lines (v : Struct) (path : String) : List String :=
  ["  &" ++ struct_pattern v path "" "ref " ++ " => \x7b"]
  ++ v.fields.map (fun f => "    ListNodeIds::add_node_ids(" ++ f.name ++ ", node_id_list);")
  ++ ["  \x7d"]

/-- list_node_ids.py `list_rec` (under `linewise`), as its line list. -/
def list_rec_lines (se : Decl) (target : String) : List String :=
  ["match " ++ target ++ " \x7b"]
  ++ (variants_paths se).flatMap (fun vp => arm_lines vp.1 vp.2)
  ++ ["\x7d"]

/-- list_node_ids.py `list_rec`: the newline join of its lines. -/
def list_rec (se : Decl) (target : String) : String :=
  joinWith "\n" (list_rec_lines se target)

/-- `textwrap.indent(text, pre)`: prefixes every line of `text` that
contains non-whitespace characters (its default predicate is the
truthiness of `line.strip()`).  Applied here to the line list, which is
faithful because every emitted line is newline-free (the spec assumes
paths and field names are valid identifiers, section 4.1). -/
def indent_lines (ls : List String) (pre : String) : List String :=
  ls.map (fun l => if l.data.all Char.isWhitespace then l else pre ++ l)

/-- list_node_ids.py `list_impl` (under `linewise`), as its line list. -/
def list_impl_lines (se : Decl) : List String :=
  ["#[allow(unused, non_shorthand_field_patterns)]",
   "impl ListNodeIds for " ++ se.name ++ " \x7b",
   "  fn add_node_ids(&self, node_id_list: &mut Vec<NodeId>) \x7b"]
  ++ indent_lines (list_rec_lines se "self") "    "
  ++ ["  \x7d", "\x7d"]

/-- list_node_ids.py `list_impl`: the newline join of its lines. -/
def list_impl (se : Decl) : String :=
  joinWith "\n" (list_impl_lines se)

/-- list_node_ids.py `dummy_impl` (under `linewise`), as its line list. -/
def dummy_impl_lines (se : Decl) : List String :=
  ["#[allow(unused, non_shorthand_field_patterns)]",
   "impl ListNodeIds for " ++ se.name ++ " \x7b",
   "  fn add_node_ids(&self, _node_id_list: &mut Vec<NodeId>) \x7b",
   "    // Do nothing",
   "  \x7d",
   "\x7d"]

/-- list_node_ids.py `dummy_impl`: the newline join of its lines. -/
def dummy_impl (se : Decl) : String :=
  joinWith "\n" (dummy_impl_lines se)

/-- list_node_ids.py: the body of the `for d in decls` loop in `generate`:
`continue` on the custom override, `list_impl` for Structs and Enums,
`dummy_impl` otherwise. -/
def impl_for_decl (d : Decl) : Option String :=
  if attrGet d.attrs "list_node_ids" == some "custom" then none
  else
    match d with
    | .struct _ => some (list_impl d)
    | .enum _ => some (list_impl d)
    | .other _ _ => some (dummy_impl d)

/-- list_node_ids.py `generate` (under `linewise`), with the banner
timestamp as an explicit parameter; `continue` makes the loop a
`filterMap`. -/
def generate (ts : String) (decls : List Decl) : String :=
  joinWith "\n" (banner ts ++ decls.filterMap impl_for_decl)

end ListNodeIds

/-- The statement lines of a generated `add_node_ids` body: every operation
the generators emit is a `...;` statement line (its last character is a
semicolon), while comment lines do nothing. -/
def body_statement_lines (ls : List String) : List String :=
  ls.filter (fun l => l.data.getLast? == some ';')

/-! Helper lemmas shared by the claim theorems. -/

/-- A nonempty join starts with its first element. -/
theorem joinWith_head (sep a : String) (as : List String) :
    ∃ r, joinWith sep (a :: as) = a ++ r := by
  cases as with
  | nil => exact ⟨"", by simp [joinWith]⟩
  | cons b bs => exact ⟨sep ++ joinWith sep (b :: bs), by simp [joinWith, String.append_assoc]⟩

/-- Appending to a string of positive length cannot give the empty string. -/
theorem append_ne_empty_left (a r : String) (h : a.length ≠ 0) : a ++ r ≠ "" := by
  intro he
  have hl := congrArg String.length he
  rw [String.length_append] at hl
  simp at hl
  omega

/-- A join whose first line has positive length is nonempty. -/
theorem joinWith_cons_ne_empty (sep a : String) (as : List String) (h : a.length ≠ 0) :
    joinWith sep (a :: as) ≠ "" := by
  obtain ⟨r, hr⟩ := joinWith_head sep a as
  rw [hr]
  exact append_ne_empty_left a r h

/-- Among a field list containing a field literally named `kind`, `find?`
locates one, and its name is `kind`. -/
theorem find_field_named_some (l : List Field) (h : ∃ f ∈ l, f.name = "kind") :
    ((l.find? (fun f => f.name == "kind")).map Field.name) = some "kind" := by
  induction l with
  | nil => simp at h
  | cons g t ih =>
    by_cases hg : g.name = "kind"
    · simp [List.find?_cons, hg]
    · have ht : ∃ f ∈ t, f.name = "kind" := by
        obtain ⟨f, hf, hn⟩ := h
        cases hf with
        | head => exact absurd hn hg
        | tail _ hmem => exact ⟨f, hmem, hn⟩
      simpa [List.find?_cons, hg] using ih ht

/-- Among a field list with no field literally named `kind`, `find?` finds
nothing. -/
theorem find_field_named_none (l : List Field) (h : ∀ f ∈ l, f.name ≠ "kind") :
    (l.find? (fun f => f.name == "kind")) = none := by
  induction l with
  | nil => rfl
  | cons g t ih =>
    have hg := h g (List.mem_cons_self g t)
    simpa [List.find?_cons, hg] using ih (fun f hf => h f (List.mem_cons_of_mem g hf))

/-! Claim theorems. -/

/-- C1: for every struct `s`, `find_kind_field s` resolves as follows: with
the `no_kind` suppress marker it is `none` regardless of field contents;
otherwise with exactly one field marked `kind` it is that field's name; with
zero marked fields it is `"kind"` when some field is literally named `kind`
and `none` when no field is. -/
theorem find_kind_field_cases :
    (∀ s : Struct, hasAttr s.attrs "no_kind" = true → find_kind_field s = .ok none)
    ∧ (∀ s : Struct, hasAttr s.attrs "no_kind" = false → ∀ m, marked_kind_fields s = [m] →
        find_kind_field s = .ok (some m))
    ∧ (∀ s : Struct, hasAttr s.attrs "no_kind" = false → marked_kind_fields s = [] →
        (∃ f ∈ s.fields, f.name = "kind") → find_kind_field s = .ok (some "kind"))
    ∧ (∀ s : Struct, hasAttr s.attrs "no_kind" = false → marked_kind_fields s = [] →
        (∀ f ∈ s.fields, f.name ≠ "kind") → find_kind_field s = .ok none) := by
  refine ⟨?_, ?_, ?_, ?_⟩
  · intro s h
    simp [find_kind_field, h]
  · intro s h m hm
    simp [find_kind_field, h, hm]
  · intro s h hm hex
    simp [find_kind_field, h, hm, find_field_named_some s.fields hex]
  · intro s h hm hnone
    simp [find_kind_field, h, hm, find_field_named_none s.fields hnone]

/-- C1 witness: the four resolution branches evaluated at concrete structs. -/
theorem find_kind_field_cases_witness :
    find_kind_field ⟨"A", [("no_kind", none)], [⟨"kind", []⟩], false⟩ = .ok none
    ∧ find_kind_field ⟨"B", [], [⟨"f", [("kind", none)]⟩, ⟨"g", []⟩], false⟩ = .ok (some "f")
    ∧ find_kind_field ⟨"C", [], [⟨"x", []⟩, ⟨"kind", []⟩], false⟩ = .ok (some "kind")
    ∧ find_kind_field ⟨"D", [], [⟨"x", []⟩], false⟩ = .ok none :=
  ⟨find_kind_field_cases.1 _ (by decide),
   find_kind_field_cases.2.1 _ (by decide) "f" (by decide),
   find_kind_field_cases.2.2.1 _ (by decide) (by decide) ⟨⟨"kind", []⟩, by decide, rfl⟩,
   find_kind_field_cases.2.2.2 _ (by decide) (by decide) (by decide)⟩

/-- If one declaration of the list makes `do_ast_names_impl` fail, the whole
block loop fails (the join forces every block, so the first error aborts). -/
theorem generate_blocks_error (pre post : List Decl) (x : Decl)
    (h : ∃ e, AstNames.do_ast_names_impl x = .error e) :
    ∃ e, AstNames.generate_blocks (pre ++ x :: post) = .error e := by
  induction pre with
  | nil =>
    obtain ⟨e, he⟩ := h
    exact ⟨e, by simp [AstNames.generate_blocks, he]⟩
  | cons d rest ih =>
    obtain ⟨e2, he2⟩ := ih
    cases hd : AstNames.do_ast_names_impl d with
    | error e => exact ⟨e, by simp [AstNames.generate_blocks, hd]⟩
    | ok b => exact ⟨e2, by simp [AstNames.generate_blocks, hd, he2]⟩

/-- C2: a struct without the `no_kind` marker but with two or more fields
marked `kind` makes `find_kind_field` fail with the configuration error
whose message names the struct and the count of marked fields, and whenever
such a struct appears in the declaration list the name generator returns an
error rather than any (partial) text. -/
theorem find_kind_field_ambiguous :
    ∀ s : Struct, hasAttr s.attrs "no_kind" = false → 2 ≤ (marked_kind_fields s).length →
      find_kind_field s = .error ("struct " ++ s.name ++ " has " ++
        toString (marked_kind_fields s).length ++ " fields marked #[kind] (expected 0 or 1)")
      ∧ ∀ (ts : String) (pre post : List Decl),
          ∃ e, AstNames.generate ts (pre ++ Decl.struct s :: post) = .error e := by
  intro s h hlen
  obtain ⟨a, b, t, hm⟩ : ∃ a b t, marked_kind_fields s = a :: b :: t := by
    match hml : marked_kind_fields s with
    | [] => rw [hml] at hlen; simp at hlen
    | [x] => rw [hml] at hlen; simp at hlen
    | a :: b :: t => exact ⟨a, b, t, rfl⟩
  have hfk : find_kind_field s = .error ("struct " ++ s.name ++ " has " ++
      toString (marked_kind_fields s).length ++ " fields marked #[kind] (expected 0 or 1)") := by
    simp [find_kind_field, h, hm]
  refine ⟨hfk, ?_⟩
  intro ts pre post
  have himpl : ∃ e0, AstNames.do_ast_names_impl (Decl.struct s) = .error e0 :=
    ⟨"struct " ++ s.name ++ " has " ++ toString (marked_kind_fields s).length ++
        " fields marked #[kind] (expected 0 or 1)",
     by simp [AstNames.do_ast_names_impl, variants_paths, AstNames.arms_for,
          AstNames.arm_lines, AstNames.kind_suffix_lines, hfk]⟩
  obtain ⟨e1, hgb⟩ := generate_blocks_error pre post (Decl.struct s) himpl
  exact ⟨e1, by simp [AstNames.generate, hgb]⟩

/-- C2 witness: a struct with two `kind`-marked fields, evaluated concretely. -/
theorem find_kind_field_ambiguous_witness :
    find_kind_field ⟨"Foo", [], [⟨"a", [("kind", none)]⟩, ⟨"b", [("kind", none)]⟩], false⟩
      = .error "struct Foo has 2 fields marked #[kind] (expected 0 or 1)"
    ∧ ∃ e, AstNames.generate ""
        [Decl.struct ⟨"Foo", [], [⟨"a", [("kind", none)]⟩, ⟨"b", [("kind", none)]⟩], false⟩]
        = .error e := by
  have h := find_kind_field_ambiguous
    ⟨"Foo", [], [⟨"a", [("kind", none)]⟩, ⟨"b", [("kind", none)]⟩], false⟩
    (by decide) (by decide)
  exact ⟨h.1, h.2 "" [] []⟩

/-- C3: `struct_pattern` formats a non-tuple variant as
`path { name: bindmode+name+suffix, ... }` (an empty field list giving
`path {  }`), a zero-field tuple variant as the bare path, and a nonempty
tuple variant as `path(bindmode+name+suffix, ...)`, in declaration order;
with the default binding mode `ref ` and empty suffix, tuple fields a, b
give `P(ref a, ref b)`, and named fields x, y with suffix `_new` give
`P { x: ref x_new, y: ref y_new }`. -/
theorem struct_pattern_spec :
    (∀ (v : Struct) (path suffix bm : String), v.is_tuple = false →
      struct_pattern v path suffix bm
        = path ++ " \x7b " ++
          joinWith ", " (v.fields.map (fun f => f.name ++ ": " ++ bm ++ f.name ++ suffix)) ++
          " \x7d")
    ∧ (∀ (v : Struct) (path suffix bm : String), v.is_tuple = false → v.fields = [] →
      struct_pattern v path suffix bm = path ++ " \x7b  \x7d")
    ∧ (∀ (v : Struct) (path suffix bm : String), v.is_tuple = true → v.fields = [] →
      struct_pattern v path suffix bm = path)
    ∧ (∀ (v : Struct) (path suffix bm : String), v.is_tuple = true → v.fields ≠ [] →
      struct_pattern v path suffix bm
        = path ++ "(" ++
          joinWith ", " (v.fields.map (fun f => bm ++ f.name ++ suffix)) ++ ")")
    ∧ struct_pattern ⟨"S", [], [⟨"a", []⟩, ⟨"b", []⟩], true⟩ "P" "" "ref " = "P(ref a, ref b)"
    ∧ struct_pattern ⟨"S", [], [⟨"x", []⟩, ⟨"y", []⟩], false⟩ "P" "_new" "ref "
        = "P \x7b x: ref x_new, y: ref y_new \x7d" := by
  refine ⟨?_, ?_, ?_, ?_, by decide, by decide⟩
  · intro v path suffix bm h
    simp [struct_pattern, struct_fields, h]
  · intro v path suffix bm h hf
    simp [struct_pattern, struct_fields, h, hf, joinWith, String.append_assoc]
  · intro v path suffix bm h hf
    simp [struct_pattern, h, hf]
  · intro v path suffix bm h hf
    match hv : v.fields with
    | [] => exact absurd hv hf
    | a :: t => simp [struct_pattern, tuple_fields, h, hv]

/-- C3 witness: the three formatting branches evaluated concretely. -/
theorem struct_pattern_spec_witness :
    struct_pattern ⟨"N", [], [⟨"a", []⟩], false⟩ "Q" "" "mut " = "Q \x7b a: mut a \x7d"
    ∧ struct_pattern ⟨"N", [], [], false⟩ "Q" "" "ref " = "Q \x7b  \x7d"
    ∧ struct_pattern ⟨"N", [], [], true⟩ "Q" "" "ref " = "Q"
    ∧ struct_pattern ⟨"N", [], [⟨"a", []⟩], true⟩ "Q" "_x" "ref " = "Q(ref a_x)" :=
  ⟨struct_pattern_spec.1 _ "Q" "" "mut " rfl,
   struct_pattern_spec.2.1 _ "Q" "" "ref " rfl rfl,
   struct_pattern_spec.2.2.1 _ "Q" "" "ref " rfl rfl,
   struct_pattern_spec.2.2.2.1 _ "Q" "_x" "ref " rfl (by decide)⟩

/-- On an Enum declaration, every arm of `do_ast_names_impl` consists of the
pattern line, the bare-name string line and the closing brace only: the
`isinstance(d, (Struct))` guard means no arm ever consults a kind field. -/
theorem arms_for_enum (e : Enum) (vps : List (Struct × String)) :
    AstNames.arms_for (Decl.enum e) vps = .ok (vps.flatMap (fun vp =>
      ["      &" ++ struct_pattern vp.1 vp.2 "" "ref " ++ " => \x7b",
       "        \"" ++ vp.1.name ++ "\".to_string()",
       "      \x7d"])) := by
  induction vps with
  | nil => rfl
  | cons vp rest ih =>
    obtain ⟨v, p⟩ := vp
    simp [AstNames.arms_for, AstNames.arm_lines, AstNames.kind_suffix_lines, ih]

/-- C4 counterexample: an enum whose single case `C` carries a `kind`-marked
field `k`.  `find_kind_field` on the case itself finds `k`, yet the emitted
block contains no `+ ":" + &self.k.ast_name()` line: the generator never
performs the per-case kind lookup the claim describes. -/
theorem ast_names_enum_kind_counterexample :
    find_kind_field ⟨"C", [], [⟨"k", [("kind", none)]⟩], true⟩ = .ok (some "k")
    ∧ AstNames.do_ast_names_impl
        (Decl.enum ⟨"E", [], [⟨"C", [], [⟨"k", [("kind", none)]⟩], true⟩]⟩)
        = .ok (joinWith "\n"
          ["#[allow(unused, non_shorthand_field_patterns)]",
           "impl AstName for E \x7b",
           "  fn ast_name(&self) -> String \x7b",
           "    match self \x7b",
           "      &E::C(ref k) => \x7b",
           "        \"C\".to_string()",
           "      \x7d",
           "    \x7d",
           "  \x7d",
           "\x7d"])
    ∧ "        + \":\" + &self.k.ast_name()" ∉
        ["#[allow(unused, non_shorthand_field_patterns)]",
         "impl AstName for E \x7b",
         "  fn ast_name(&self) -> String \x7b",
         "    match self \x7b",
         "      &E::C(ref k) => \x7b",
         "        \"C\".to_string()",
         "      \x7d",
         "    \x7d",
         "  \x7d",
         "\x7d"] :=
  ⟨rfl, rfl, by decide⟩

/-- C4 amended: in the name-stringification generator every arm returns the
variant's bare name as a string literal; the `":" ++ kind` concatenation is
appended only for Struct declarations (when `find_kind_field` on the struct
itself finds a truthy field name), while Enum arms never receive it — the
per-case kind lookup is not performed. -/
theorem ast_names_kind_struct_only :
    (∀ (s : Struct) (k : String), find_kind_field s = .ok (some k) → k ≠ "" →
      AstNames.do_ast_names_impl (Decl.struct s) = .ok (joinWith "\n"
        ["#[allow(unused, non_shorthand_field_patterns)]",
         "impl AstName for " ++ s.name ++ " \x7b",
         "  fn ast_name(&self) -> String \x7b",
         "    match self \x7b",
         "      &" ++ struct_pattern s s.name "" "ref " ++ " => \x7b",
         "        \"" ++ s.name ++ "\".to_string()",
         "        + \":\" + &self." ++ k ++ ".ast_name()",
         "      \x7d",
         "    \x7d",
         "  \x7d",
         "\x7d"]))
    ∧ (∀ e : Enum, AstNames.do_ast_names_impl (Decl.enum e) = .ok (joinWith "\n"
        (["#[allow(unused, non_shorthand_field_patterns)]",
          "impl AstName for " ++ e.name ++ " \x7b",
          "  fn ast_name(&self) -> String \x7b",
          "    match self \x7b"]
         ++ (e.variants.flatMap (fun c =>
              ["      &" ++ struct_pattern c (e.name ++ "::" ++ c.name) "" "ref " ++ " => \x7b",
               "        \"" ++ c.name ++ "\".to_string()",
               "      \x7d"]))
         ++ ["    \x7d", "  \x7d", "\x7d"]))) := by
  constructor
  · intro s k hfk hk
    have hk2 : (k == "") = false := beq_eq_false_iff_ne.mpr hk
    simp [AstNames.do_ast_names_impl, variants_paths, AstNames.arms_for,
      AstNames.arm_lines, AstNames.kind_suffix_lines, Decl.name, hfk, hk2]
  · intro e
    simp [AstNames.do_ast_names_impl, variants_paths, arms_for_enum,
      List.flatMap_map, Decl.name]

/-- C4 amended witness: a struct whose kind field is the field named `kind`,
evaluated concretely. -/
theorem ast_names_kind_struct_only_witness :
    AstNames.do_ast_names_impl (Decl.struct ⟨"S", [], [⟨"kind", []⟩, ⟨"x", []⟩], false⟩)
      = .ok (joinWith "\n"
        ["#[allow(unused, non_shorthand_field_patterns)]",
         "impl AstName for S \x7b",
         "  fn ast_name(&self) -> String \x7b",
         "    match self \x7b",
         "      &S \x7b kind: ref kind, x: ref x \x7d => \x7b",
         "        \"S\".to_string()",
         "        + \":\" + &self.kind.ast_name()",
         "      \x7d",
         "    \x7d",
         "  \x7d",
         "\x7d"]) :=
  ast_names_kind_struct_only.1 ⟨"S", [], [⟨"kind", []⟩, ⟨"x", []⟩], false⟩ "kind"
    rfl (by decide)

/-- C5 counterexample: a declaration without the `rewrite_seq_item` marker
still receives the full dereference implementation block — the generator's
`supported` flag is computed but never gates emission, so the claim that
unmarked declarations contribute nothing is false. -/
theorem ast_deref_unmarked_counterexample :
    hasAttr (Decl.other "Foo" []).attrs "rewrite_seq_item" = false
    ∧ AstDeref.do_ast_deref_impl (Decl.other "Foo" [])
        = joinWith "\n"
          ["#[allow(unused)]",
           "impl AstDeref for Foo \x7b",
           "  type Target = Self;",
           "  fn ast_deref(&self) -> &Self \x7b self \x7d",
           "\x7d"]
    ∧ AstDeref.do_ast_deref_impl (Decl.other "Foo" []) ≠ ""
    ∧ AstDeref.generate "T" [Decl.other "Foo" []]
        = joinWith "\n"
          ["// AUTOMATICALLY GENERATED - DO NOT EDIT",
           "// Produced T by process_ast.py",
           "",
           joinWith "\n"
             ["#[allow(unused)]",
              "impl AstDeref for Foo \x7b",
              "  type Target = Self;",
              "  fn ast_deref(&self) -> &Self \x7b self \x7d",
              "\x7d"]] :=
  ⟨rfl, rfl, by decide, rfl⟩

/-- C5 amended: every declaration — marked with `rewrite_seq_item` or not —
receives the same fixed reflexive-dereference implementation, which depends
only on the declaration's name (target type Self, `ast_deref` returning a
reference to self); the marker attribute is read but does not gate
emission. -/
theorem ast_deref_impl_uniform :
    (∀ d1 d2 : Decl, d1.name = d2.name →
      AstDeref.do_ast_deref_impl d1 = AstDeref.do_ast_deref_impl d2)
    ∧ (∀ d : Decl, AstDeref.do_ast_deref_impl d
        = "#[allow(unused)]\nimpl AstDeref for " ++ d.name ++
          " \x7b\n  type Target = Self;\n  fn ast_deref(&self) -> &Self \x7b self \x7d\n\x7d")
    ∧ (∀ d : Decl, AstDeref.do_ast_deref_impl d ≠ "") := by
  refine ⟨?_, ?_, ?_⟩
  · intro d1 d2 h
    simp [AstDeref.do_ast_deref_impl, AstDeref.do_ast_deref_impl_lines, h]
  · intro d
    simp [AstDeref.do_ast_deref_impl, AstDeref.do_ast_deref_impl_lines, joinWith,
      String.append_assoc]
    rfl
  · intro d
    exact joinWith_cons_ne_empty _ _ _ (by decide)

/-- C5 amended witness: a marked struct and an unmarked opaque declaration
with the same name receive identical blocks, and the block is the fixed
text. -/
theorem ast_deref_impl_uniform_witness :
    AstDeref.do_ast_deref_impl (Decl.struct ⟨"Foo", [("rewrite_seq_item", none)], [], false⟩)
      = AstDeref.do_ast_deref_impl (Decl.other "Foo" [])
    ∧ AstDeref.do_ast_deref_impl (Decl.other "Foo" [])
        = "#[allow(unused)]\nimpl AstDeref for Foo \x7b\n  type Target = Self;\n  fn ast_deref(&self) -> &Self \x7b self \x7d\n\x7d" :=
  ⟨ast_deref_impl_uniform.1 _ _ rfl,
   ast_deref_impl_uniform.2.1 (Decl.other "Foo" [])⟩

/-- The block `list_impl` emits is never the empty string: it starts with
the `allow` attribute line. -/
theorem list_impl_ne_empty (d : Decl) : ListNodeIds.list_impl d ≠ "" := by
  unfold ListNodeIds.list_impl ListNodeIds.list_impl_lines
  exact joinWith_cons_ne_empty _ _ _ (by decide)

/-- The block `dummy_impl` emits is never the empty string: it starts with
the `allow` attribute line. -/
theorem dummy_impl_ne_empty (d : Decl) : ListNodeIds.dummy_impl d ≠ "" := by
  unfold ListNodeIds.dummy_impl ListNodeIds.dummy_impl_lines
  exact joinWith_cons_ne_empty _ _ _ (by decide)

/-- Every `list_impl` block contains the indented `match self {` line that
opens the generated match. -/
theorem match_line_mem_list_impl_lines (d : Decl) :
    "    match self \x7b" ∈ ListNodeIds.list_impl_lines d := by
  have hws : (("match " ++ "self" ++ " \x7b").data.all Char.isWhitespace) = false := by decide
  have happ : "    " ++ ("match " ++ "self" ++ " \x7b") = "    match self \x7b" := rfl
  simp [ListNodeIds.list_impl_lines, ListNodeIds.list_rec_lines, ListNodeIds.indent_lines,
    hws, happ]

/-- C6: the child-node-id generator emits a non-empty implementation block
for every declaration whose attribute map does not bind `list_node_ids` to
the literal value `custom` — a match block (`match self {`) when the
declaration is a Struct or an Enum — and emits nothing at all for a
declaration whose attribute map binds `list_node_ids` to `custom`. -/
theorem list_node_ids_override_spec :
    (∀ d : Decl, attrGet d.attrs "list_node_ids" = some "custom" →
      ListNodeIds.impl_for_decl d = none)
    ∧ (∀ d : Decl, attrGet d.attrs "list_node_ids" ≠ some "custom" →
      ∃ b, ListNodeIds.impl_for_decl d = some b ∧ b ≠ "")
    ∧ (∀ s : Struct, attrGet s.attrs "list_node_ids" ≠ some "custom" →
      ListNodeIds.impl_for_decl (Decl.struct s) = some (ListNodeIds.list_impl (Decl.struct s))
      ∧ "    match self \x7b" ∈ ListNodeIds.list_impl_lines (Decl.struct s))
    ∧ (∀ e : Enum, attrGet e.attrs "list_node_ids" ≠ some "custom" →
      ListNodeIds.impl_for_decl (Decl.enum e) = some (ListNodeIds.list_impl (Decl.enum e))
      ∧ "    match self \x7b" ∈ ListNodeIds.list_impl_lines (Decl.enum e)) := by
  refine ⟨?_, ?_, ?_, ?_⟩
  · intro d h
    simp [ListNodeIds.impl_for_decl, h]
  · intro d h
    have hb : (attrGet d.attrs "list_node_ids" == some "custom") = false :=
      beq_eq_false_iff_ne.mpr h
    cases d with
    | struct s =>
      exact ⟨ListNodeIds.list_impl (Decl.struct s),
        by simp [ListNodeIds.impl_for_decl, hb], list_impl_ne_empty _⟩
    | enum e =>
      exact ⟨ListNodeIds.list_impl (Decl.enum e),
        by simp [ListNodeIds.impl_for_decl, hb], list_impl_ne_empty _⟩
    | other n a =>
      exact ⟨ListNodeIds.dummy_impl (Decl.other n a),
        by simp [ListNodeIds.impl_for_decl, hb], dummy_impl_ne_empty _⟩
  · intro s h
    have hb : (attrGet (Decl.struct s).attrs "list_node_ids" == some "custom") = false :=
      beq_eq_false_iff_ne.mpr h
    exact ⟨by simp [ListNodeIds.impl_for_decl, hb], match_line_mem_list_impl_lines _⟩
  · intro e h
    have hb : (attrGet (Decl.enum e).attrs "list_node_ids" == some "custom") = false :=
      beq_eq_false_iff_ne.mpr h
    exact ⟨by simp [ListNodeIds.impl_for_decl, hb], match_line_mem_list_impl_lines _⟩

/-- C6 witness: a declaration marked custom emits nothing; an unmarked
struct emits a nonempty block containing a match on self. -/
theorem list_node_ids_override_spec_witness :
    ListNodeIds.impl_for_decl (Decl.other "T" [("list_node_ids", some "custom")]) = none
    ∧ (∃ b, ListNodeIds.impl_for_decl (Decl.other "U" []) = some b ∧ b ≠ "")
    ∧ ListNodeIds.impl_for_decl (Decl.struct ⟨"S", [], [], false⟩)
        = some (ListNodeIds.list_impl (Decl.struct ⟨"S", [], [], false⟩))
    ∧ "    match self \x7b" ∈ ListNodeIds.list_impl_lines (Decl.struct ⟨"S", [], [], false⟩) :=
  ⟨list_node_ids_override_spec.1 _ rfl,
   list_node_ids_override_spec.2.1 _ (by decide),
   (list_node_ids_override_spec.2.2.1 ⟨"S", [], [], false⟩ (by decide)).1,
   (list_node_ids_override_spec.2.2.1 ⟨"S", [], [], false⟩ (by decide)).2⟩

/-- C7: a declaration that is neither a Struct nor an Enum and is not marked
custom receives the dummy implementation, whose `add_node_ids` body is the
single comment line `// Do nothing` — it binds its argument as unused
(`_node_id_list`) and contains no statement, so the caller-supplied output
sequence is left unchanged. -/
theorem list_node_ids_dummy_noop :
    ∀ (n : String) (a : List (String × Option String)),
      attrGet a "list_node_ids" ≠ some "custom" →
      ListNodeIds.impl_for_decl (Decl.other n a) = some (ListNodeIds.dummy_impl (Decl.other n a))
      ∧ ListNodeIds.dummy_impl_lines (Decl.other n a)
          = ["#[allow(unused, non_shorthand_field_patterns)]",
             "impl ListNodeIds for " ++ n ++ " \x7b",
             "  fn add_node_ids(&self, _node_id_list: &mut Vec<NodeId>) \x7b",
             "    // Do nothing",
             "  \x7d",
             "\x7d"]
      ∧ body_statement_lines ["    // Do nothing"] = [] := by
  intro n a h
  have hb : (attrGet a "list_node_ids" == some "custom") = false := beq_eq_false_iff_ne.mpr h
  exact ⟨by simp [ListNodeIds.impl_for_decl, Decl.attrs, hb], rfl, by decide⟩

/-- C7 witness: the dummy no-op implementation for a concrete opaque
declaration. -/
theorem list_node_ids_dummy_noop_witness :
    ListNodeIds.impl_for_decl (Decl.other "Ty" [])
      = some (ListNodeIds.dummy_impl (Decl.other "Ty" []))
    ∧ body_statement_lines ["    // Do nothing"] = [] :=
  ⟨(list_node_ids_dummy_noop "Ty" [] (by decide)).1,
   (list_node_ids_dummy_noop "Ty" [] (by decide)).2.2⟩

/-- C8: the name-stringification generator contributes an implementation
block only for Struct and Enum declarations: any other declaration's
per-declaration emission is the empty string, while a Struct or Enum block
that is produced is nonempty. -/
theorem ast_names_struct_enum_only :
    (∀ (n : String) (a : List (String × Option String)),
      AstNames.do_ast_names_impl (Decl.other n a) = .ok "")
    ∧ (∀ (s : Struct) (out : String),
        AstNames.do_ast_names_impl (Decl.struct s) = .ok out → out ≠ "")
    ∧ (∀ (e : Enum) (out : String),
        AstNames.do_ast_names_impl (Decl.enum e) = .ok out → out ≠ "") := by
  refine ⟨fun n a => rfl, ?_, ?_⟩
  · intro s out h
    cases ha : AstNames.arms_for (Decl.struct s) (variants_paths (Decl.struct s)) with
    | error e => simp [AstNames.do_ast_names_impl, ha] at h
    | ok arms =>
      simp [AstNames.do_ast_names_impl, ha] at h
      rw [← h]
      exact joinWith_cons_ne_empty _ _ _ (by decide)
  · intro e out h
    cases ha : AstNames.arms_for (Decl.enum e) (variants_paths (Decl.enum e)) with
    | error e2 => simp [AstNames.do_ast_names_impl, ha] at h
    | ok arms =>
      simp [AstNames.do_ast_names_impl, ha] at h
      rw [← h]
      exact joinWith_cons_ne_empty _ _ _ (by decide)

/-- C8 witness: an opaque declaration contributes the empty block, and a
concrete struct's block is nonempty. -/
theorem ast_names_struct_enum_only_witness :
    AstNames.do_ast_names_impl (Decl.other "T" []) = .ok ""
    ∧ AstNames.do_ast_names_impl (Decl.struct ⟨"S", [], [], false⟩)
        = .ok (joinWith "\n"
          ["#[allow(unused, non_shorthand_field_patterns)]",
           "impl AstName for S \x7b",
           "  fn ast_name(&self) -> String \x7b",
           "    match self \x7b",
           "      &S \x7b  \x7d => \x7b",
           "        \"S\".to_string()",
           "      \x7d",
           "    \x7d",
           "  \x7d",
           "\x7d"])
    ∧ joinWith "\n"
        ["#[allow(unused, non_shorthand_field_patterns)]",
         "impl AstName for S \x7b",
         "  fn ast_name(&self) -> String \x7b",
         "    match self \x7b",
         "      &S \x7b  \x7d => \x7b",
         "        \"S\".to_string()",
         "      \x7d",
         "    \x7d",
         "  \x7d",
         "\x7d"] ≠ "" :=
  ⟨ast_names_struct_enum_only.1 "T" [],
   rfl,
   ast_names_struct_enum_only.2.1 ⟨"S", [], [], false⟩ _ rfl⟩

/-- C9: each generator's output is a pure function of the declaration list
and the banner timestamp: two runs on the same list with the same fixed
timestamp produce byte-identical text. -/
theorem generate_deterministic :
    ∀ (ts1 ts2 : String) (decls : List Decl), ts1 = ts2 →
      AstDeref.generate ts1 decls = AstDeref.generate ts2 decls
      ∧ AstNames.generate ts1 decls = AstNames.generate ts2 decls
      ∧ ListNodeIds.generate ts1 decls = ListNodeIds.generate ts2 decls := by
  intro ts1 ts2 decls h
  subst h
  exact ⟨rfl, rfl, rfl⟩

/-- C9 witness: two runs with the same fixed timestamp on a concrete list. -/
theorem generate_deterministic_witness :
    AstDeref.generate "2024-01-01" [Decl.other "T" []]
      = AstDeref.generate "2024-01-01" [Decl.other "T" []]
    ∧ AstNames.generate "2024-01-01" [Decl.other "T" []]
      = AstNames.generate "2024-01-01" [Decl.other "T" []]
    ∧ ListNodeIds.generate "2024-01-01" [Decl.other "T" []]
      = ListNodeIds.generate "2024-01-01" [Decl.other "T" []] :=
  generate_deterministic "2024-01-01" "2024-01-01" [Decl.other "T" []] rfl

/-- C10: in every match arm the child-node-id generator emits for a variant,
the identifiers bound by the arm's pattern (each field name with empty
suffix) are exactly the identifiers passed to the `ListNodeIds::add_node_ids`
calls of the arm's body — one call per field, in declaration order — so
every name the body references is bound by the pattern. -/
theorem list_rec_arm_bound_ids :
    ∀ (v : Struct) (path : String),
      ListNodeIds.arm_lines v path
        = ["  &" ++ struct_pattern v path "" "ref " ++ " => \x7b"]
          ++ (pattern_bound_ids v "").map
              (fun x => "    ListNodeIds::add_node_ids(" ++ x ++ ", node_id_list);")
          ++ ["  \x7d"]
      ∧ pattern_bound_ids v "" = v.fields.map Field.name := by
  intro v path
  have hb : pattern_bound_ids v "" = v.fields.map Field.name := by
    unfold pattern_bound_ids
    by_cases ht : (v.is_tuple && v.fields.isEmpty) = true
    · rw [if_pos ht]
      have hf : v.fields = [] := by
        rcases Bool.and_eq_true_iff.mp ht with ⟨_, h2⟩
        exact List.isEmpty_iff.mp h2
      simp [hf]
    · rw [if_neg ht]
      simp
  refine ⟨?_, hb⟩
  simp [ListNodeIds.arm_lines, hb, List.map_map, Function.comp]

end C2Rust
